import Mathlib

/-!
Verification development for the intent-classification and tool-routing layer of the
Todo AI Chatbot repository (`backend/core/agents/intent_classifier.py` and
`backend/core/agents/tool_wiring.py`).

The Python code is shallowly embedded:
* text is `List Char`; `str.lower()` / `str.strip()` / `str.split()` are modelled on
  ASCII (the repository's patterns and all concrete witnesses are ASCII);
* the Python `re` usage is modelled by a small backtracking matcher over a regex AST
  covering exactly the constructs appearing in the repository's pattern tables:
  literal characters (all call sites pass `re.IGNORECASE`, so literals compare
  case-insensitively), the classes `\w`, `\s`, `\d`, `.`, alternation (leftmost
  priority), greedy and lazy repetition, optional groups, capturing and
  non-capturing groups, the word boundary `\b`, the anchor `$`, and negative
  lookahead `(?!...)`;
* `re.search` is leftmost search, `re.findall` is the non-overlapping scan with the
  Python group convention (whole match for zero groups, the single group's capture
  for one group, a tuple of captures for two or more groups);
* Python floats become `ℚ` (all scores are small dyadic rationals, so this is exact);
* dictionaries become association lists in insertion order; Python truthiness is
  modelled per value shape; code that can raise returns `Except`.
-/

namespace TodoAgent

/-- Text as a list of characters (Python `str`). -/
abbrev Str := List Char

/-- Python `\w` on ASCII: letters, digits, underscore. -/
def isWordChar (c : Char) : Bool := c.isAlphanum || c = '_'

/-- Python `\s` on ASCII: the six ASCII whitespace characters. -/
def isPySpace (c : Char) : Bool :=
  c = ' ' || c = '\t' || c = '\n' || c = '\r' || c = '\x0b' || c = '\x0c'

/-- Python `str.lower()` on ASCII. -/
def lowerStr (t : Str) : Str := t.map Char.toLower

/-- Python `str.strip()` (ASCII whitespace). -/
def strip (t : Str) : Str :=
  ((t.dropWhile isPySpace).reverse.dropWhile isPySpace).reverse

/-- One step of Python `str.split()`: skip whitespace, else cut the next word. -/
def splitWsGo : Nat → Str → List Str
  | 0, _ => []
  | _, [] => []
  | fuel + 1, c :: cs =>
    if isPySpace c then splitWsGo fuel cs
    else (c :: cs.takeWhile (fun d => !isPySpace d)) ::
      splitWsGo fuel (cs.dropWhile (fun d => !isPySpace d))

/-- Python `str.split()` with no separator: whitespace-delimited words. -/
def splitWs (t : Str) : List Str := splitWsGo t.length t

/-- `(t.drop a).take (b - a)`: the substring `t[a:b]`, used for match and group text. -/
def sliceStr (t : Str) (a b : Nat) : Str := (t.drop a).take (b - a)

/-- Character classes appearing in the repository's patterns. -/
inductive CharCls where
  | wordc : CharCls
  | spacec : CharCls
  | digitc : CharCls
  | dot : CharCls
  deriving DecidableEq, Repr

/-- Class membership; `.` matches anything except a newline (no `re.DOTALL` is used). -/
def clsMatch : CharCls → Char → Bool
  | .wordc, c => isWordChar c
  | .spacec, c => isPySpace c
  | .digitc, c => c.isDigit
  | .dot, c => c != '\n'

/-- Regex AST covering the constructs used by the repository's patterns. -/
inductive Regex where
  | eps : Regex
  | ch : Char → Regex
  | cls : CharCls → Regex
  | seq : Regex → Regex → Regex
  | alt : Regex → Regex → Regex
  | star : Bool → Regex → Regex
  | opt : Bool → Regex → Regex
  | grp : Nat → Regex → Regex
  | wb : Regex
  | eos : Regex
  | nla : Regex → Regex
  deriving DecidableEq, Repr

/-- Recorded captures: group index with start and end position, most recent first. -/
abbrev Caps := List (Nat × Nat × Nat)

/-- A (position, captures) pair produced by a successful match attempt. -/
abbrev MRes := Nat × Caps

/--
Backtracking matcher in continuation-passing style, mirroring the Python `re`
backtracking engine on the supported constructs: alternation tries the left branch
first, greedy repetition prefers to iterate, lazy repetition prefers to exit, and a
repetition iteration that consumes nothing stops the loop (Python's empty-match
rule).  Literal characters compare case-insensitively because every call site in the
repository passes `re.IGNORECASE`.  `$` matches at the end of the text or before a
final newline (no `re.MULTILINE` is used).  The fuel only bounds repetition unrolling;
`t.length + 1` iterations always suffice because every iteration must consume input.
-/
def mrun (t : Str) : Nat → Regex → Nat → Caps → (Nat → Caps → Option MRes) → Option MRes
  | 0, _, _, _, _ => none
  | fuel + 1, r, p, cs, k =>
    match r with
    | .eps => k p cs
    | .ch c =>
      match t.get? p with
      | some d => if d.toLower = c.toLower then k (p + 1) cs else none
      | none => none
    | .cls cc =>
      match t.get? p with
      | some d => if clsMatch cc d then k (p + 1) cs else none
      | none => none
    | .seq a b => mrun t fuel a p cs (fun p' cs' => mrun t fuel b p' cs' k)
    | .alt a b =>
      match mrun t fuel a p cs k with
      | some res => some res
      | none => mrun t fuel b p cs k
    | .star g a =>
      let once : (Nat → Caps → Option MRes) → Option MRes := fun kk =>
        mrun t fuel a p cs (fun p' cs' =>
          if p < p' then mrun t fuel (.star g a) p' cs' kk else kk p' cs')
      if g then
        match once k with
        | some res => some res
        | none => k p cs
      else
        match k p cs with
        | some res => some res
        | none => once k
    | .opt g a =>
      if g then
        match mrun t fuel a p cs k with
        | some res => some res
        | none => k p cs
      else
        match k p cs with
        | some res => some res
        | none => mrun t fuel a p cs k
    | .grp i a => mrun t fuel a p cs (fun p' cs' => k p' ((i, p, p') :: cs'))
    | .wb =>
      let before : Bool :=
        match p with
        | 0 => false
        | q + 1 => match t.get? q with
          | some c => isWordChar c
          | none => false
      let after : Bool :=
        match t.get? p with
        | some c => isWordChar c
        | none => false
      if before ≠ after then k p cs else none
    | .eos =>
      if p = t.length ∨ (p + 1 = t.length ∧ t.get? p = some '\n') then k p cs else none
    | .nla a =>
      match mrun t fuel a p cs (fun p' cs' => some (p', cs')) with
      | some _ => none
      | none => k p cs

/-- Structural size of a regex, used to budget the matcher's fuel. -/
def rsize : Regex → Nat
  | .eps => 1
  | .ch _ => 1
  | .cls _ => 1
  | .seq a b => rsize a + rsize b + 1
  | .alt a b => rsize a + rsize b + 1
  | .star _ a => rsize a + 1
  | .opt _ a => rsize a + 1
  | .grp _ a => rsize a + 1
  | .wb => 1
  | .eos => 1
  | .nla a => rsize a + 1

/-- Attempt to match `r` at position `s` of `t`, returning end position and captures.
Along any single chain of recursive calls positions never decrease and every
repetition loop strictly advances, so `(t.length + 1) * (rsize r + 1) + rsize r + 1`
call-depth fuel is never exhausted (all concrete evaluations in this file were
cross-checked against CPython's `re`). -/
def matchAt (t : Str) (r : Regex) (s : Nat) : Option MRes :=
  mrun t ((t.length + 1) * (rsize r + 1) + rsize r + 1) r s [] (fun p cs => some (p, cs))

/-- Scan for the leftmost match at a position `≥ s` (the core of `re.search`). -/
def searchFrom (t : Str) (r : Regex) : Nat → Nat → Option (Nat × Nat × Caps)
  | 0, _ => none
  | fuel + 1, s =>
    if s > t.length then none
    else
      match matchAt t r s with
      | some (e, cs) => some (s, e, cs)
      | none => searchFrom t r fuel (s + 1)

/-- Python `re.search`: leftmost match of `r` in `t` as (start, end, captures). -/
def research (t : Str) (r : Regex) : Option (Nat × Nat × Caps) :=
  searchFrom t r (t.length + 2) 0

/-- The non-overlapping scan behind `re.findall`: after a match the scan resumes at
its end, or one position later when the match was empty. -/
def findallFrom (t : Str) (r : Regex) : Nat → Nat → List (Nat × Nat × Caps)
  | 0, _ => []
  | fuel + 1, s =>
    match searchFrom t r (t.length + 2) s with
    | none => []
    | some (ms, me, cs) =>
      (ms, me, cs) :: findallFrom t r fuel (if ms < me then me else me + 1)

/-- Python `re.findall`, as raw (start, end, captures) triples. -/
def findallRaw (t : Str) (r : Regex) : List (Nat × Nat × Caps) :=
  findallFrom t r (t.length + 2 + 1) 0

/-- Text of capture group `i` (most recent binding; `""` when it did not participate). -/
def capLookup (t : Str) (cs : Caps) (i : Nat) : Str :=
  match cs.find? (fun e => e.1 = i) with
  | some e => sliceStr t e.2.1 e.2.2
  | none => []

/-- One element of a `re.findall` result: a string, or a tuple of group captures
(produced when the pattern has two or more capturing groups). -/
inductive EntVal where
  | str : Str → EntVal
  | tup : List Str → EntVal
  deriving DecidableEq, Repr

/-- A Python value reachable at the entity/parameter interface: a `findall` element,
an integer (the router's `limit`/`offset` defaults), or a list of `findall` elements. -/
inductive PyVal where
  | ev : EntVal → PyVal
  | int : Int → PyVal
  | list : List EntVal → PyVal
  deriving DecidableEq, Repr

/-- Shorthand for a plain string value. -/
def pstr (s : Str) : PyVal := .ev (.str s)

/-- Python truthiness for the value shapes above. -/
def pyTruthy : PyVal → Bool
  | .ev (.str s) => !s.isEmpty
  | .ev (.tup l) => !l.isEmpty
  | .int n => n ≠ 0
  | .list l => !l.isEmpty

/-- The element `re.findall` returns for one raw match, following the Python group
convention: the whole match for zero groups, the first group's text for one group,
and a tuple of all group texts for two or more groups. -/
def matchVal (ng : Nat) (t : Str) (m : Nat × Nat × Caps) : EntVal :=
  if ng = 0 then .str (sliceStr t m.1 m.2.1)
  else if ng = 1 then .str (capLookup t m.2.2 1)
  else .tup ((List.range ng).map (fun i => capLookup t m.2.2 (i + 1)))

/-- A pattern of the repository's tables: the raw source text (used by
`_calculate_intent_score` to harvest its literal word tokens via `re.findall(r"\w+",
pattern)`), the compiled AST, and its number of capturing groups. -/
structure Pat where
  src : Str
  re : Regex
  ng : Nat
  deriving DecidableEq, Repr

/-- Sequence a list of regexes. -/
def rcat : List Regex → Regex
  | [] => .eps
  | [r] => r
  | r :: rs => .seq r (rcat rs)

/-- A literal string (matched case-insensitively, as all call sites pass
`re.IGNORECASE`). -/
def rstr (s : String) : Regex := rcat (s.toList.map Regex.ch)

/-- Alternation with Python's left-to-right priority. -/
def ralts : List Regex → Regex
  | [] => .eps
  | [r] => r
  | r :: rs => .alt r (ralts rs)

/-- `(w1|w2|...)` over literal words. -/
def rwords (ws : List String) : Regex := ralts (ws.map rstr)

/-- `\s+` (greedy). -/
def wsp : Regex := .seq (.cls .spacec) (.star true (.cls .spacec))

/-- `\w+` (greedy). -/
def wplus : Regex := .seq (.cls .wordc) (.star true (.cls .wordc))

/-- `.*` with the given greediness. -/
def dotstar (g : Bool) : Regex := .star g (.cls .dot)

/-- `\b(w1|w2|...)\b` as capture group `i`. -/
def wgrp (i : Nat) (ws : List String) : Regex :=
  rcat [.wb, .grp i (rwords ws), .wb]

/-- `r{n}`: `n` copies in sequence. -/
def rrep : Nat → Regex → Regex
  | 0, _ => .eps
  | n + 1, r => .seq r (rrep n r)

/-! ### The intent pattern table (`IntentClassifier.__init__`, `self.intent_patterns`)

Each `Pat.src` is the Python raw-string source (backslashes doubled for Lean; `{`,
`}` and `'` written with `\x7b`, `\x7d`, `\x27`); each `Pat.re` is its translation.
-/

/-- `add_task` pattern 1. -/
def addPat1 : Pat :=
  { src := "\\b(add|create|make|new|establish|setup)\\b.*\\b(task|todo|item|thing|note|reminder)\\b".toList
    re := rcat [wgrp 1 ["add", "create", "make", "new", "establish", "setup"],
      dotstar true,
      wgrp 2 ["task", "todo", "item", "thing", "note", "reminder"]]
    ng := 2 }

/-- `add_task` pattern 2. -/
def addPat2 : Pat :=
  { src := "\\b(task|todo|item|thing|note|reminder)\\b.*\\b(add|create|make|new|establish|setup)\\b".toList
    re := rcat [wgrp 1 ["task", "todo", "item", "thing", "note", "reminder"],
      dotstar true,
      wgrp 2 ["add", "create", "make", "new", "establish", "setup"]]
    ng := 2 }

/-- `add_task` pattern 3. -/
def addPat3 : Pat :=
  { src := "\\b(remind me to|need to|want to|should|must|have to)\\b".toList
    re := wgrp 1 ["remind me to", "need to", "want to", "should", "must", "have to"]
    ng := 1 }

/-- `add_task` pattern 4. -/
def addPat4 : Pat :=
  { src := "\\b(make a note|write down|put in my list)\\b".toList
    re := wgrp 1 ["make a note", "write down", "put in my list"]
    ng := 1 }

/-- `list_tasks` pattern 1. -/
def listPat1 : Pat :=
  { src := "\\b(show|list|view|see|display|fetch|get)\\b.*\\b(task|todo|item|things|notes|reminders)\\b".toList
    re := rcat [wgrp 1 ["show", "list", "view", "see", "display", "fetch", "get"],
      dotstar true,
      wgrp 2 ["task", "todo", "item", "things", "notes", "reminders"]]
    ng := 2 }

/-- `list_tasks` pattern 2. -/
def listPat2 : Pat :=
  { src := "\\b(what are|do i have|show me|display|list)\\b.*\\b(task|todo|item|things|notes|reminders)\\b".toList
    re := rcat [wgrp 1 ["what are", "do i have", "show me", "display", "list"],
      dotstar true,
      wgrp 2 ["task", "todo", "item", "things", "notes", "reminders"]]
    ng := 2 }

/-- `list_tasks` pattern 3. -/
def listPat3 : Pat :=
  { src := "\\b(my tasks|my todos|my list|current tasks)\\b".toList
    re := wgrp 1 ["my tasks", "my todos", "my list", "current tasks"]
    ng := 1 }

/-- `complete_task` pattern 1. -/
def compPat1 : Pat :=
  { src := "\\b(mark|complete|finish|done|check off|tick off)\\b.*\\b(task|todo|item|thing)\\b".toList
    re := rcat [wgrp 1 ["mark", "complete", "finish", "done", "check off", "tick off"],
      dotstar true,
      wgrp 2 ["task", "todo", "item", "thing"]]
    ng := 2 }

/-- `complete_task` pattern 2. -/
def compPat2 : Pat :=
  { src := "\\b(task|todo|item|thing)\\b.*\\b(mark|complete|finish|done|as done)\\b".toList
    re := rcat [wgrp 1 ["task", "todo", "item", "thing"],
      dotstar true,
      wgrp 2 ["mark", "complete", "finish", "done", "as done"]]
    ng := 2 }

/-- `complete_task` pattern 3. -/
def compPat3 : Pat :=
  { src := "\\b(is done|finished|completed|checked|ticked)\\b".toList
    re := wgrp 1 ["is done", "finished", "completed", "checked", "ticked"]
    ng := 1 }

/-- `complete_task` pattern 4 (source `"\b(i'm done with|i finished|completed|done with)\b"`). -/
def compPat4 : Pat :=
  { src := "\\b(i\x27m done with|i finished|completed|done with)\\b".toList
    re := wgrp 1 ["i\x27m done with", "i finished", "completed", "done with"]
    ng := 1 }

/-- `delete_task` pattern 1. -/
def delPat1 : Pat :=
  { src := "\\b(delete|remove|erase|cancel|eliminate|get rid of)\\b.*\\b(task|todo|item|thing)\\b".toList
    re := rcat [wgrp 1 ["delete", "remove", "erase", "cancel", "eliminate", "get rid of"],
      dotstar true,
      wgrp 2 ["task", "todo", "item", "thing"]]
    ng := 2 }

/-- `delete_task` pattern 2. -/
def delPat2 : Pat :=
  { src := "\\b(task|todo|item|thing)\\b.*\\b(delete|remove|erase|cancel|eliminate|get rid of)\\b".toList
    re := rcat [wgrp 1 ["task", "todo", "item", "thing"],
      dotstar true,
      wgrp 2 ["delete", "remove", "erase", "cancel", "eliminate", "get rid of"]]
    ng := 2 }

/-- `update_task` pattern 1. -/
def updPat1 : Pat :=
  { src := "\\b(update|change|modify|edit|adjust|alter|redo|revise)\\b.*\\b(task|todo|item|thing)\\b".toList
    re := rcat [wgrp 1 ["update", "change", "modify", "edit", "adjust", "alter", "redo", "revise"],
      dotstar true,
      wgrp 2 ["task", "todo", "item", "thing"]]
    ng := 2 }

/-- `update_task` pattern 2. -/
def updPat2 : Pat :=
  { src := "\\b(task|todo|item|thing)\\b.*\\b(update|change|modify|edit|adjust|alter|redo|revise)\\b".toList
    re := rcat [wgrp 1 ["task", "todo", "item", "thing"],
      dotstar true,
      wgrp 2 ["update", "change", "modify", "edit", "adjust", "alter", "redo", "revise"]]
    ng := 2 }

/-- `update_task` pattern 3. -/
def updPat3 : Pat :=
  { src := "\\b(rename|change to|modify to|update to)\\b".toList
    re := wgrp 1 ["rename", "change to", "modify to", "update to"]
    ng := 1 }

/-- `help` pattern 1. -/
def helpPat1 : Pat :=
  { src := "\\b(help|support|assistance|instruction|how to|what can you do|can you|could you)\\b".toList
    re := wgrp 1 ["help", "support", "assistance", "instruction", "how to",
      "what can you do", "can you", "could you"]
    ng := 1 }

/-- `help` pattern 2. -/
def helpPat2 : Pat :=
  { src := "\\b(tutorial|guide|assist|aid|manual)\\b".toList
    re := wgrp 1 ["tutorial", "guide", "assist", "aid", "manual"]
    ng := 1 }

/-- The `Intent` enumeration of the classifier. -/
inductive Intent where
  | add_task : Intent
  | list_tasks : Intent
  | complete_task : Intent
  | delete_task : Intent
  | update_task : Intent
  | help : Intent
  | unknown : Intent
  deriving DecidableEq, Repr

/-- `self.intent_patterns`: the intent table in declaration (dict insertion) order. -/
def intentTable : List (Intent × List Pat) :=
  [(.add_task, [addPat1, addPat2, addPat3, addPat4]),
   (.list_tasks, [listPat1, listPat2, listPat3]),
   (.complete_task, [compPat1, compPat2, compPat3, compPat4]),
   (.delete_task, [delPat1, delPat2]),
   (.update_task, [updPat1, updPat2, updPat3]),
   (.help, [helpPat1, helpPat2])]

/-! ### The entity pattern table (`self.entity_patterns`) -/

/-- The terminator `(?:\s+and|\s+for|\s+by|\s+on|\s+at|\.|$)` shared by the title
patterns and the fallback title pattern. -/
def titleTermRe : Regex :=
  ralts [.seq wsp (rstr "and"), .seq wsp (rstr "for"), .seq wsp (rstr "by"),
    .seq wsp (rstr "on"), .seq wsp (rstr "at"), .ch '.', .eos]

/-- `title` pattern 1. -/
def titlePat1 : Pat :=
  { src := "(?:add|create|make|new)\\s+(?:a\\s+)?(?:task|todo|note|item|reminder)\\s+to\\s+(.*?)(?:\\s+and|\\s+for|\\s+by|\\s+on|\\s+at|\\.|$)".toList
    re := rcat [rwords ["add", "create", "make", "new"], wsp,
      .opt true (.seq (rstr "a") wsp),
      rwords ["task", "todo", "note", "item", "reminder"], wsp,
      rstr "to", wsp, .grp 1 (dotstar false), titleTermRe]
    ng := 1 }

/-- `title` pattern 2. -/
def titlePat2 : Pat :=
  { src := "(?:remind me to|need to|want to)\\s+(.*?)(?:\\s+and|\\s+for|\\s+by|\\s+on|\\s+at|\\.|$)".toList
    re := rcat [rwords ["remind me to", "need to", "want to"], wsp,
      .grp 1 (dotstar false), titleTermRe]
    ng := 1 }

/-- `title` pattern 3. -/
def titlePat3 : Pat :=
  { src := "(?:update|change|modify|edit|rename)\\s+(?:task|todo|item)\\s+(?:named\\s+|called\\s+|titled\\s+)?(.*)".toList
    re := rcat [rwords ["update", "change", "modify", "edit", "rename"], wsp,
      rwords ["task", "todo", "item"], wsp,
      .opt true (ralts [.seq (rstr "named") wsp, .seq (rstr "called") wsp,
        .seq (rstr "titled") wsp]),
      .grp 1 (dotstar true)]
    ng := 1 }

/-- `date` pattern 1 (source `r'\b(\d{4}-\d{2}-\d{2})\b'`). -/
def datePat1 : Pat :=
  { src := "\\b(\\d\x7b4\x7d-\\d\x7b2\x7d-\\d\x7b2\x7d)\\b".toList
    re := rcat [.wb,
      .grp 1 (rcat [rrep 4 (.cls .digitc), .ch '-', rrep 2 (.cls .digitc), .ch '-',
        rrep 2 (.cls .digitc)]),
      .wb]
    ng := 1 }

/-- `date` pattern 2: one or two digits, a slash-or-hyphen class, one or two digits,
the same class again, then four digits, all inside `\b(...)\b`. -/
def datePat2 : Pat :=
  { src := "\\b(\\d\x7b1,2\x7d[/-]\\d\x7b1,2\x7d[/-]\\d\x7b4\x7d)\\b".toList
    re := rcat [.wb,
      .grp 1 (rcat [.cls .digitc, .opt true (.cls .digitc),
        ralts [.ch '/', .ch '-'],
        .cls .digitc, .opt true (.cls .digitc),
        ralts [.ch '/', .ch '-'],
        rrep 4 (.cls .digitc)]),
      .wb]
    ng := 1 }

/-- `date` pattern 3. -/
def datePat3 : Pat :=
  { src := "\\b(today|tomorrow|yesterday|tonight|now)\\b".toList
    re := wgrp 1 ["today", "tomorrow", "yesterday", "tonight", "now"]
    ng := 1 }

/-- `date` pattern 4. -/
def datePat4 : Pat :=
  { src := "\\b(next\\s+(?:week|month|year|monday|tuesday|wednesday|thursday|friday|saturday|sunday))\\b".toList
    re := rcat [.wb,
      .grp 1 (rcat [rstr "next", wsp,
        rwords ["week", "month", "year", "monday", "tuesday", "wednesday", "thursday",
          "friday", "saturday", "sunday"]]),
      .wb]
    ng := 1 }

/-- `date` pattern 5. -/
def datePat5 : Pat :=
  { src := "\\b(this\\s+(?:week|month|weekend))\\b".toList
    re := rcat [.wb,
      .grp 1 (rcat [rstr "this", wsp, rwords ["week", "month", "weekend"]]),
      .wb]
    ng := 1 }

/-- `priority` pattern 1. -/
def prioPat1 : Pat :=
  { src := "\\b(urgent|high|top|critical|important|medium|normal|low|lowest)\\b".toList
    re := wgrp 1 ["urgent", "high", "top", "critical", "important", "medium", "normal",
      "low", "lowest"]
    ng := 1 }

/-- `priority` pattern 2 (two capturing groups). -/
def prioPat2 : Pat :=
  { src := "\\b(priority\\s+(?:is\\s+)?(high|medium|low|urgent))\\b".toList
    re := rcat [.wb,
      .grp 1 (rcat [rstr "priority", wsp, .opt true (.seq (rstr "is") wsp),
        .grp 2 (rwords ["high", "medium", "low", "urgent"])]),
      .wb]
    ng := 2 }

/-- `category` pattern 1. -/
def catPat1 : Pat :=
  { src := "\\b(in\\s+(?:work|personal|shopping|health|finance|home|school|other))\\b".toList
    re := rcat [.wb,
      .grp 1 (rcat [rstr "in", wsp,
        rwords ["work", "personal", "shopping", "health", "finance", "home", "school",
          "other"]]),
      .wb]
    ng := 1 }

/-- `category` pattern 2. -/
def catPat2 : Pat :=
  { src := "\\b(for\\s+(?:work|personal|shopping|health|finance|home|school|other))\\b".toList
    re := rcat [.wb,
      .grp 1 (rcat [rstr "for", wsp,
        rwords ["work", "personal", "shopping", "health", "finance", "home", "school",
          "other"]]),
      .wb]
    ng := 1 }

/-- `category` pattern 3 (two capturing groups). -/
def catPat3 : Pat :=
  { src := "\\b(category\\s+(?:is\\s+)?(work|personal|shopping|health|finance|home|school|other))\\b".toList
    re := rcat [.wb,
      .grp 1 (rcat [rstr "category", wsp, .opt true (.seq (rstr "is") wsp),
        .grp 2 (rwords ["work", "personal", "shopping", "health", "finance", "home",
          "school", "other"])]),
      .wb]
    ng := 2 }

/-- `self.entity_patterns`: the entity table in declaration (dict insertion) order. -/
def entityTable : List (String × List Pat) :=
  [("title", [titlePat1, titlePat2, titlePat3]),
   ("date", [datePat1, datePat2, datePat3, datePat4, datePat5]),
   ("priority", [prioPat1, prioPat2]),
   ("category", [catPat1, catPat2, catPat3])]

/-- The fallback title pattern of `_extract_entities` (negative lookahead included). -/
def fallbackTitleRe : Regex :=
  rcat [rwords ["add", "create", "make", "new"], wsp,
    .opt true (.seq (rstr "a") wsp),
    .nla (rwords ["task", "todo", "item", "note", "reminder"]),
    .grp 1 (.seq wplus (.star false (.seq wsp wplus))),
    titleTermRe]

/-! ### Scoring and classification -/

/-- `re.findall(r'\w+', s)`: the maximal word-character runs of a string, computed
with the engine itself on the pattern `\w+`. -/
def wordTok (s : Str) : List Str :=
  (findallRaw s wplus).map (fun m => sliceStr s m.1 m.2.1)

/-- `len(set(a) & set(b))` for lists of strings. -/
def setInterCard (a b : List Str) : Nat :=
  (a.dedup.filter (fun w => decide (w ∈ b))).length

/-- Number of non-overlapping matches, `len(re.findall(pattern, text))`. -/
def findallCount (t : Str) (p : Pat) : Nat := (findallRaw t p.re).length

/-- `_calculate_intent_score`, mirroring the code's two loops: first add
`len(matches) * 2.0` per pattern, then for each pattern whose compiled form
`search`es successfully add `overlap * 0.5`, where `overlap` is the intersection
of the pattern source's word tokens with the whitespace-split words of the text. -/
def calcIntentScore (t : Str) (ps : List Pat) : ℚ :=
  let score1 : ℚ := ps.foldl (fun acc p => acc + (findallCount t p : ℚ) * 2) 0
  let words := splitWs t
  ps.foldl (fun acc p =>
    if (research t p.re).isSome then
      acc + (setInterCard (wordTok p.src) words : ℚ) * 0.5
    else acc) score1

/-- The scoring formula exactly as the specification words it: the sum over the
intent's patterns of `2.0 ×` the non-overlapping match count, plus, for each pattern
that matches at least once, `0.5 ×` the size of the set-intersection between the
pattern source's literal word tokens and the text's whitespace-split word tokens. -/
def specIntentScore (t : Str) (ps : List Pat) : ℚ :=
  (ps.map (fun p => (2 : ℚ) * (findallCount t p : ℚ))).sum +
    ((ps.filter (fun p => decide (0 < findallCount t p))).map
      (fun p => (0.5 : ℚ) * (setInterCard (wordTok p.src) (splitWs t) : ℚ))).sum

/-- The classifier's output value object. -/
structure ClassifiedIntent where
  intent : Intent
  confidence : ℚ
  entities : List (String × PyVal)
  original_text : Str
  deriving DecidableEq, Repr

/-- Dictionary lookup on an association list (`entities.get(key)`). -/
def entGet (es : List (String × PyVal)) (k : String) : Option PyVal :=
  (es.find? (fun e => e.1 = k)).map (·.2)

/-- Python `max(intent_scores, key=intent_scores.get)` over the scores in dict
(insertion) order: a left fold that replaces the current best only on a strictly
larger score, so the first of several maximal intents wins. -/
def pymax (x : Intent × ℚ) (xs : List (Intent × ℚ)) : Intent × ℚ :=
  xs.foldl (fun b y => if y.2 > b.2 then y else b) x

/-- `match.lower() if isinstance(match, str) else match`. -/
def entLowerIfStr : EntVal → EntVal
  | .str s => .str (lowerStr s)
  | .tup l => .tup l

/-- The per-slot processing of `_extract_entities`: case-fold every element unless
the slot is `date`, then store the single element when the pattern matched exactly
once and the whole list otherwise. -/
def procEnt (isDate : Bool) (vs : List EntVal) : PyVal :=
  let pv := if isDate then vs else vs.map entLowerIfStr
  if pv.length = 1 then .ev (pv.headD (.str [])) else .list pv

/-- Try a slot's patterns in order; the first with a non-empty `findall` wins. -/
def firstPatMatch (t : Str) (isDate : Bool) : List Pat → Option PyVal
  | [] => none
  | p :: ps =>
    match findallRaw t p.re with
    | [] => firstPatMatch t isDate ps
    | m :: ms => some (procEnt isDate ((m :: ms).map (matchVal p.ng t)))

/-- One step of the `_extract_entities` slot scan: store the first matching
pattern's processed value for this slot, if any. -/
def entStep (t : Str) (acc : List (String × PyVal)) (ep : String × List Pat) :
    List (String × PyVal) :=
  match firstPatMatch t (ep.1 = "date") ep.2 with
  | none => acc
  | some v => acc ++ [(ep.1, v)]

/-- `_extract_entities`: scan the entity table in order, then, when no `title` slot
was filled, try the fallback title regex and store its stripped first group. -/
def extractEntities (t : Str) : List (String × PyVal) :=
  let base := entityTable.foldl (entStep t) []
  if (entGet base "title").isSome then base
  else
    match research t fallbackTitleRe with
    | some m => base ++ [("title", pstr (strip (capLookup t m.2.2 1)))]
    | none => base

/-- `IntentClassifier.classify_intent`: normalise (`text.lower().strip()`), return
`unknown`/`0.0` on empty input, otherwise score every intent, pick the dict-order
maximum, reject below the `0.1` threshold, and otherwise extract entities and clip
the confidence at `1.0`.  The `original_text` field keeps the raw input. -/
def classifyIntent (text : Str) : ClassifiedIntent :=
  let norm := strip (lowerStr text)
  if norm.isEmpty then
    { intent := .unknown, confidence := 0, entities := [], original_text := text }
  else
    match intentTable.map (fun ip => (ip.1, calcIntentScore norm ip.2)) with
    | [] => { intent := .unknown, confidence := 0, entities := [], original_text := text }
    | x :: xs =>
      let best := pymax x xs
      if best.2 < 0.1 then
        { intent := .unknown, confidence := best.2, entities := [], original_text := text }
      else
        { intent := best.1, confidence := min best.2 1, entities := extractEntities norm,
          original_text := text }

/-- `refine_intent_with_entities`: re-label an `unknown` result as `add_task`
(confidence `0.8`) when a `title` entity is present, else as `update_task`
(confidence `0.7`) when any of `title`/`date`/`priority`/`category` is present. -/
def refineIntent (ci : ClassifiedIntent) : ClassifiedIntent :=
  if ci.intent = .unknown ∧ (entGet ci.entities "title").isSome then
    { intent := .add_task, confidence := 0.8, entities := ci.entities,
      original_text := ci.original_text }
  else if ci.intent = .unknown ∧
      ((entGet ci.entities "title").isSome ∨ (entGet ci.entities "date").isSome ∨
        (entGet ci.entities "priority").isSome ∨ (entGet ci.entities "category").isSome) then
    { intent := .update_task, confidence := 0.7, entities := ci.entities,
      original_text := ci.original_text }
  else ci

/-- The module-level `classify_intent`: classification followed by refinement. -/
def classifyFull (text : Str) : ClassifiedIntent := refineIntent (classifyIntent text)

/-! ### Intent-to-tool routing (`tool_wiring.py`) -/

/-- `ToolMappingResult`. -/
structure ToolMappingResult where
  success : Bool
  tool_name : Option Str := none
  tool_parameters : List (String × PyVal) := []
  message : Option Str := none
  error : Option Str := none
  deriving DecidableEq, Repr

/-- Lookup in a parameter dictionary. -/
def pGet (ps : List (String × PyVal)) (k : String) : Option PyVal :=
  (ps.find? (fun e => e.1 = k)).map (·.2)

/-- Render a value into an f-string.  Strings and integers are rendered exactly;
the textual repr of tuples and lists is not modelled (no theorem depends on it). -/
def pyFormat : PyVal → Str
  | .ev (.str s) => s
  | .int n => (toString n).toList
  | _ => []

/-- `str.replace(" ", "-")`. -/
def dashSpaces (s : Str) : Str := s.map (fun c => if c = ' ' then '-' else c)

/-- The regex of `_map_add_task`'s title fallback,
`(?:add|create|make)\s+(?:a\s+)?(?:task|todo|note|item)\s+to\s+(.+?)(?:\.|$)`. -/
def mapAddTitleRe : Regex :=
  rcat [rwords ["add", "create", "make"], wsp,
    .opt true (.seq (rstr "a") wsp),
    rwords ["task", "todo", "note", "item"], wsp,
    rstr "to", wsp,
    .grp 1 (.seq (.cls .dot) (.star false (.cls .dot))),
    ralts [.ch '.', .eos]]

/-- `_map_add_task`: build the `add_task` parameters; the title falls back from the
`title` entity to a regex-derived substring of the raw `original_text`, and finally
to the entire raw `original_text`. -/
def mapAddTask (ci : ClassifiedIntent) : ToolMappingResult :=
  let title0 := (entGet ci.entities "title").getD (pstr [])
  let title : PyVal :=
    if pyTruthy title0 then title0
    else
      match research ci.original_text mapAddTitleRe with
      | some m => pstr (strip (capLookup ci.original_text m.2.2 1))
      | none => pstr ci.original_text
  let params :=
    [("title", title),
     ("description", (entGet ci.entities "description").getD (pstr [])),
     ("priority", (entGet ci.entities "priority").getD (pstr "medium".toList)),
     ("category", (entGet ci.entities "category").getD (pstr "general".toList))] ++
    (match entGet ci.entities "date" with
     | some d => [("due_date", d)]
     | none => [])
  { success := true, tool_name := some "add_task".toList, tool_parameters := params,
    message := some ("Adding task: ".toList ++ pyFormat title) }

/-- `_map_list_tasks`. -/
def mapListTasks (ci : ClassifiedIntent) : ToolMappingResult :=
  let params :=
    [("status", (entGet ci.entities "status").getD (pstr "all".toList)),
     ("limit", .int 50), ("offset", .int 0)] ++
    (match entGet ci.entities "priority" with
     | some v => [("priority", v)]
     | none => []) ++
    (match entGet ci.entities "category" with
     | some v => [("category", v)]
     | none => [])
  { success := true, tool_name := some "list_tasks".toList, tool_parameters := params,
    message := some "Listing tasks".toList }

/-- The placeholder identifier synthesized from a title.  Python evaluates
`"placeholder-id-for-" + task_title.replace(" ", "-")`, which raises
(`AttributeError`/`TypeError`) when the title is not a string; that exception is
modelled as `Except.error`. -/
def placeholderId : PyVal → Except String PyVal
  | .ev (.str s) => .ok (pstr ("placeholder-id-for-".toList ++ dashSpaces s))
  | _ => .error "attribute"

/-- `_map_complete_task`. -/
def mapCompleteTask (ci : ClassifiedIntent) : Except String ToolMappingResult :=
  let taskId := entGet ci.entities "task_id"
  let taskTitle := (entGet ci.entities "title").getD (pstr [])
  if !(taskId.map pyTruthy).getD false && !pyTruthy taskTitle then
    .ok { success := false,
          error := some "Please specify which task to complete. You can say something like \x27complete the grocery shopping task\x27".toList,
          message := some "Which task would you like to complete?".toList }
  else do
    let tid ←
      if !(taskId.map pyTruthy).getD false && pyTruthy taskTitle then
        placeholderId taskTitle
      else pure (taskId.getD (pstr []))
    let params := [("task_id", tid)] ++
      (match entGet ci.entities "notes" with
       | some v => [("completion_notes", v)]
       | none => [])
    pure { success := true, tool_name := some "complete_task".toList,
           tool_parameters := params,
           message := some ("Completing task: ".toList ++ pyFormat tid) }

/-- `_map_delete_task`. -/
def mapDeleteTask (ci : ClassifiedIntent) : Except String ToolMappingResult :=
  let taskId := entGet ci.entities "task_id"
  let taskTitle := (entGet ci.entities "title").getD (pstr [])
  if !(taskId.map pyTruthy).getD false && !pyTruthy taskTitle then
    .ok { success := false,
          error := some "Please specify which task to delete. You can say something like \x27delete the grocery shopping task\x27".toList,
          message := some "Which task would you like to delete?".toList }
  else do
    let tid ←
      if !(taskId.map pyTruthy).getD false && pyTruthy taskTitle then
        placeholderId taskTitle
      else pure (taskId.getD (pstr []))
    pure { success := true, tool_name := some "delete_task".toList,
           tool_parameters := [("task_id", tid)],
           message := some ("Deleting task: ".toList ++ pyFormat tid) }

/-- `_map_update_task`. -/
def mapUpdateTask (ci : ClassifiedIntent) : Except String ToolMappingResult :=
  let taskId := entGet ci.entities "task_id"
  let taskTitle := (entGet ci.entities "title").getD (pstr [])
  if !(taskId.map pyTruthy).getD false && !pyTruthy taskTitle then
    .ok { success := false,
          error := some "Please specify which task to update. You can say something like \x27update the grocery shopping task\x27".toList,
          message := some "Which task would you like to update?".toList }
  else do
    let tid ←
      if !(taskId.map pyTruthy).getD false && pyTruthy taskTitle then
        placeholderId taskTitle
      else pure (taskId.getD (pstr []))
    let copy := fun (src dst : String) =>
      match entGet ci.entities src with
      | some v => [(dst, v)]
      | none => ([] : List (String × PyVal))
    let params := [("task_id", tid)] ++ copy "title" "title" ++
      copy "description" "description" ++ copy "date" "due_date" ++
      copy "priority" "priority" ++ copy "category" "category" ++
      copy "completed" "completed"
    pure { success := true, tool_name := some "update_task".toList,
           tool_parameters := params,
           message := some ("Updating task: ".toList ++ pyFormat tid) }

/-- The intent dispatch inside `route_to_tool`'s `try` block. -/
def routeBody (ci : ClassifiedIntent) (userId : Str) : Except String ToolMappingResult :=
  match ci.intent with
  | .add_task => .ok (mapAddTask ci)
  | .list_tasks => .ok (mapListTasks ci)
  | .complete_task => mapCompleteTask ci
  | .delete_task => mapDeleteTask ci
  | .update_task => mapUpdateTask ci
  | .help => .ok { success := true, tool_name := some "help".toList,
                   tool_parameters := [("message", pstr "help".toList), ("user_id", pstr userId)],
                   message := some "Showing help information".toList }
  | .unknown => .ok { success := false,
                      error := some ("Could not understand intent: unknown. Please try rephrasing your request.".toList),
                      message := some "I didn\x27t understand your request. Could you rephrase it?".toList }

/-- `AgentToolWiring.route_to_tool`: classify, dispatch, and convert any raised
exception into a `success=false` result (the `except` clause). -/
def route_to_tool (userInput : Str) (userId : Str) : ToolMappingResult :=
  match routeBody (classifyFull userInput) userId with
  | .ok r => r
  | .error e =>
    { success := false,
      error := some ("Error routing to tool: ".toList ++ e.toList),
      message := some "An error occurred while processing your request".toList }

/-! ### Definitions used by the theorem statements -/

/-- The score of every intent in declaration order (`intent_scores` as a list). -/
def scoreList (norm : Str) : List (Intent × ℚ) :=
  intentTable.map (fun ip => (ip.1, calcIntentScore norm ip.2))

/-- The head of the score list (the `add_task` entry). -/
def headScore (norm : Str) : Intent × ℚ :=
  (.add_task, calcIntentScore norm [addPat1, addPat2, addPat3, addPat4])

/-- The tail of the score list. -/
def tailScores (norm : Str) : List (Intent × ℚ) :=
  [(.list_tasks, calcIntentScore norm [listPat1, listPat2, listPat3]),
   (.complete_task, calcIntentScore norm [compPat1, compPat2, compPat3, compPat4]),
   (.delete_task, calcIntentScore norm [delPat1, delPat2]),
   (.update_task, calcIntentScore norm [updPat1, updPat2, updPat3]),
   (.help, calcIntentScore norm [helpPat1, helpPat2])]

/-- The winning (intent, score) pair: Python `max(intent_scores, key=intent_scores.get)`. -/
def bestOf (norm : Str) : Intent × ℚ := pymax (headScore norm) (tailScores norm)

/-- The value shapes the classification interface can deliver for an entity slot:
a scalar (string or group tuple), or a list of at least two such scalars. -/
def entShapeOK : PyVal → Bool
  | .ev _ => true
  | .int _ => false
  | .list vs => decide (2 ≤ vs.length)

/-- No character of the string is an ASCII uppercase letter. -/
def strNoUp (s : Str) : Bool := s.all (fun c => !c.isUpper)

/-- No string inside the value contains an ASCII uppercase letter. -/
def entNoUp : EntVal → Bool
  | .str s => strNoUp s
  | .tup l => l.all strNoUp

/-- No string inside the value contains an ASCII uppercase letter. -/
def valNoUp : PyVal → Bool
  | .ev e => entNoUp e
  | .int _ => true
  | .list vs => vs.all entNoUp

/-- The value shape asserted by the spec for entity values: a single string, or a
list whose elements are all strings. -/
def strOrStrList : PyVal → Bool
  | .ev (.str _) => true
  | .ev (.tup _) => false
  | .int _ => false
  | .list vs => vs.all (fun v => match v with | .str _ => true | .tup _ => false)

/-- Decidable equality for router results inside `Except`. -/
instance : DecidableEq (Except String ToolMappingResult) := fun a b =>
  match a, b with
  | .ok x, .ok y =>
    if h : x = y then .isTrue (by rw [h]) else .isFalse (fun hc => h (by cases hc; rfl))
  | .ok _, .error _ => .isFalse (fun hc => by cases hc)
  | .error _, .ok _ => .isFalse (fun hc => by cases hc)
  | .error e, .error f =>
    if h : e = f then .isTrue (by rw [h]) else .isFalse (fun hc => h (by cases hc; rfl))

/-! ## Helper lemmas -/

theorem foldl_add_map (f : Pat → ℚ) :
    ∀ (ps : List Pat) (c : ℚ), ps.foldl (fun a p => a + f p) c = c + (ps.map f).sum
  | [], c => by simp
  | p :: ps, c => by
    rw [List.foldl_cons, foldl_add_map f ps (c + f p), List.map_cons, List.sum_cons]
    ring

theorem foldl_add_if_map (cnd : Pat → Bool) (f : Pat → ℚ) :
    ∀ (ps : List Pat) (c : ℚ),
      ps.foldl (fun a p => if cnd p then a + f p else a) c =
        c + (ps.map (fun p => if cnd p then f p else 0)).sum
  | [], c => by simp
  | p :: ps, c => by
    rw [List.foldl_cons, foldl_add_if_map cnd f ps, List.map_cons, List.sum_cons]
    by_cases h : cnd p = true <;> simp [h] <;> ring

theorem map_if_sum (cnd : Pat → Bool) (f : Pat → ℚ) :
    ∀ ps : List Pat,
      (ps.map (fun p => if cnd p then f p else 0)).sum = ((ps.filter cnd).map f).sum
  | [] => by simp
  | p :: ps => by
    by_cases h : cnd p = true <;>
      simp [List.filter_cons, h, map_if_sum cnd f ps]

/-- `re.findall` is non-empty exactly when `re.search` succeeds (both start with the
same leftmost scan). -/
theorem findallRaw_ne_nil_iff (t : Str) (r : Regex) :
    findallRaw t r ≠ [] ↔ (research t r).isSome := by
  show findallFrom t r (t.length + 2 + 1) 0 ≠ [] ↔ _
  rw [findallFrom, research]
  cases h : searchFrom t r (t.length + 2) 0 with
  | none => simp
  | some m => simp

/-- `calcIntentScore` written as two sums over the pattern list. -/
theorem calcIntentScore_eq (t : Str) (ps : List Pat) :
    calcIntentScore t ps =
      (ps.map (fun p => (findallCount t p : ℚ) * 2)).sum +
        (ps.map (fun p =>
          if (research t p.re).isSome then
            (setInterCard (wordTok p.src) (splitWs t) : ℚ) * 0.5
          else 0)).sum := by
  show ps.foldl _ (ps.foldl (fun a p => a + (findallCount t p : ℚ) * 2) 0) = _
  rw [foldl_add_map (fun p => (findallCount t p : ℚ) * 2) ps 0,
    foldl_add_if_map (fun p => (research t p.re).isSome)
      (fun p => (setInterCard (wordTok p.src) (splitWs t) : ℚ) * 0.5) ps]
  ring

/-! ## C1 -/

/-- **C1.**  For every non-empty normalized input text and every intent in the
pattern table, the intent's score (as `_calculate_intent_score` computes it) equals
the specification's formula: the sum over that intent's patterns of `2.0 ×` the
count of non-overlapping regex matches in the normalized text, plus, for each
pattern that matches at least once, `0.5 ×` the size of the set-intersection between
the pattern source's literal word tokens and the whitespace-split word tokens of the
normalized text. -/
theorem C1_score_formula (text : Str) (i : Intent) (ps : List Pat)
    (hmem : (i, ps) ∈ intentTable) (hne : strip (lowerStr text) ≠ []) :
    calcIntentScore (strip (lowerStr text)) ps = specIntentScore (strip (lowerStr text)) ps := by
  set norm := strip (lowerStr text)
  rw [calcIntentScore_eq, specIntentScore]
  have h1 : (fun p : Pat => (findallCount norm p : ℚ) * 2) =
      fun p : Pat => (2 : ℚ) * (findallCount norm p : ℚ) := funext fun p => mul_comm _ _
  rw [h1]
  congr 1
  rw [map_if_sum]
  have h2 : ps.filter (fun p => (research norm p.re).isSome) =
      ps.filter (fun p => decide (0 < findallCount norm p)) := by
    apply List.filter_congr
    intro p _
    by_cases hh : findallRaw norm p.re = []
    · have hs : (research norm p.re).isSome = false := by
        by_contra hc
        exact ((findallRaw_ne_nil_iff norm p.re).mpr
          (Option.isSome_iff_ne_none.mpr (by simpa using hc))) hh
      simp [hs, findallCount, hh]
    · have hs : (research norm p.re).isSome = true := (findallRaw_ne_nil_iff norm p.re).mp hh
      simp [hs, findallCount, List.length_pos, hh]
  rw [h2]
  have h3 : (fun p : Pat => (setInterCard (wordTok p.src) (splitWs norm) : ℚ) * 0.5) =
      fun p : Pat => (0.5 : ℚ) * (setInterCard (wordTok p.src) (splitWs norm) : ℚ) :=
    funext fun p => mul_comm _ _
  rw [h3]

/-- Witness for C1 at the input `"help"` and the `help` intent row. -/
theorem C1_score_formula_witness :
    ((Intent.help, [helpPat1, helpPat2]) ∈ intentTable ∧
      strip (lowerStr "help".toList) ≠ []) ∧
    calcIntentScore (strip (lowerStr "help".toList)) [helpPat1, helpPat2] =
      specIntentScore (strip (lowerStr "help".toList)) [helpPat1, helpPat2] :=
  ⟨⟨by decide!, by decide!⟩,
    C1_score_formula "help".toList Intent.help [helpPat1, helpPat2] (by decide!) (by decide!)⟩

/-! ## The Python `max` fold -/

theorem pymax_le (x : Intent × ℚ) (xs : List (Intent × ℚ)) :
    ∀ y ∈ x :: xs, y.2 ≤ (pymax x xs).2 := by
  induction xs generalizing x with
  | nil =>
    intro y hy
    rw [List.mem_singleton] at hy
    exact hy ▸ le_refl _
  | cons z zs ih =>
    intro y hy
    have hstep : pymax x (z :: zs) = pymax (if z.2 > x.2 then z else x) zs := rfl
    have hx : x.2 ≤ (if z.2 > x.2 then z else x).2 := by
      split <;> [exact le_of_lt (by assumption); exact le_refl _]
    have hz : z.2 ≤ (if z.2 > x.2 then z else x).2 := by
      split <;> [exact le_refl _; exact le_of_not_lt (by assumption)]
    have hhead := ih (if z.2 > x.2 then z else x) _ (List.mem_cons_self _ _)
    rcases List.mem_cons.mp hy with h | h
    · subst h
      rw [hstep]
      exact le_trans hx hhead
    rcases List.mem_cons.mp h with h' | h'
    · subst h'
      rw [hstep]
      exact le_trans hz hhead
    · rw [hstep]
      exact ih _ _ (List.mem_cons_of_mem _ h')

theorem pymax_split (x : Intent × ℚ) (xs : List (Intent × ℚ)) :
    ∃ pre post, x :: xs = pre ++ (pymax x xs) :: post ∧
      ∀ y ∈ pre, y.2 < (pymax x xs).2 := by
  induction xs generalizing x with
  | nil => exact ⟨[], [], rfl, by simp⟩
  | cons z zs ih =>
    have hstep : pymax x (z :: zs) = pymax (if z.2 > x.2 then z else x) zs := rfl
    by_cases h : z.2 > x.2
    · obtain ⟨pre, post, heq, hlt⟩ := ih z
      have hb : pymax x (z :: zs) = pymax z zs := by rw [hstep, if_pos h]
      refine ⟨x :: pre, post, ?_, ?_⟩
      · rw [hb, List.cons_append]
        exact congrArg (x :: ·) heq
      · intro y hy
        rcases List.mem_cons.mp hy with h' | h'
        · have hzle : z.2 ≤ (pymax z zs).2 := pymax_le z zs z (List.mem_cons_self _ _)
          rw [h', hb]
          exact lt_of_lt_of_le h hzle
        · rw [hb]
          exact hlt y h'
    · obtain ⟨pre, post, heq, hlt⟩ := ih x
      have hb : pymax x (z :: zs) = pymax x zs := by rw [hstep, if_neg h]
      cases pre with
      | nil =>
        simp only [List.nil_append] at heq
        injection heq with h1 h2
        refine ⟨[], z :: zs, ?_, by simp⟩
        rw [hb, ← h1, List.nil_append]
      | cons q qs =>
        rw [List.cons_append] at heq
        injection heq with h1 h2
        refine ⟨x :: z :: qs, post, ?_, ?_⟩
        · rw [hb, List.cons_append, List.cons_append]
          exact congrArg (fun l => x :: z :: l) h2
        · intro y hy
          have hq : q.2 < (pymax x zs).2 := hlt q (List.mem_cons_self _ _)
          have hxlt : x.2 < (pymax x zs).2 := h1 ▸ hq
          rcases List.mem_cons.mp hy with h' | h'
          · rw [h', hb]; exact hxlt
          rcases List.mem_cons.mp h' with h'' | h''
          · rw [h'', hb]
            exact lt_of_le_of_lt (le_of_not_lt h) hxlt
          · rw [hb]
            exact hlt y (List.mem_cons_of_mem _ h'')

theorem pymax_mem (x : Intent × ℚ) (xs : List (Intent × ℚ)) :
    pymax x xs ∈ x :: xs := by
  obtain ⟨pre, post, heq, -⟩ := pymax_split x xs
  rw [heq]
  exact List.mem_append_right _ (List.mem_cons_self _ _)

/-! ## Characterizing `classify_intent` -/

theorem scoreList_eq (norm : Str) : scoreList norm = headScore norm :: tailScores norm := rfl

theorem classifyIntent_spec (text : Str) :
    classifyIntent text =
      if (strip (lowerStr text)).isEmpty then
        { intent := .unknown, confidence := 0, entities := [], original_text := text }
      else if (bestOf (strip (lowerStr text))).2 < 0.1 then
        { intent := .unknown, confidence := (bestOf (strip (lowerStr text))).2,
          entities := [], original_text := text }
      else
        { intent := (bestOf (strip (lowerStr text))).1,
          confidence := min (bestOf (strip (lowerStr text))).2 1,
          entities := extractEntities (strip (lowerStr text)), original_text := text } :=
  rfl

/-- Every score in the score list is the score of one of the six intents, hence of
the shape `(i, calcIntentScore norm ps)` with `i ≠ unknown`. -/
theorem scoreList_fst_ne_unknown (norm : Str) :
    ∀ y ∈ headScore norm :: tailScores norm, y.1 ≠ Intent.unknown := by
  intro y hy
  simp only [headScore, tailScores, List.mem_cons, List.mem_singleton,
    List.not_mem_nil, or_false] at hy
  rcases hy with h | h | h | h | h | h <;> subst h <;> simp

theorem calcIntentScore_nonneg (t : Str) (ps : List Pat) :
    0 ≤ calcIntentScore t ps := by
  rw [calcIntentScore_eq]
  have h1 : 0 ≤ (ps.map (fun p => (findallCount t p : ℚ) * 2)).sum := by
    apply List.sum_nonneg
    intro q hq
    obtain ⟨p, -, hp⟩ := List.mem_map.mp hq
    rw [← hp]
    positivity
  have h2 : 0 ≤ (ps.map (fun p =>
      if (research t p.re).isSome then
        (setInterCard (wordTok p.src) (splitWs t) : ℚ) * 0.5 else 0)).sum := by
    apply List.sum_nonneg
    intro q hq
    obtain ⟨p, -, hp⟩ := List.mem_map.mp hq
    rw [← hp]
    split
    · positivity
    · exact le_refl _
  linarith

theorem bestOf_nonneg (norm : Str) : 0 ≤ (bestOf norm).2 := by
  show 0 ≤ (pymax (headScore norm) (tailScores norm)).2
  set b := pymax (headScore norm) (tailScores norm) with hbdef
  have hmem : b ∈ headScore norm :: tailScores norm := hbdef ▸ pymax_mem _ _
  rcases List.mem_cons.mp hmem with h | h
  · rw [h, headScore]
    exact calcIntentScore_nonneg _ _
  · simp only [tailScores, List.mem_cons, List.mem_singleton, List.not_mem_nil,
      or_false] at h
    rcases h with h | h | h | h | h <;> rw [h] <;> exact calcIntentScore_nonneg _ _

/-- Refinement never changes a classifier result: `unknown` results carry empty
entities, and non-`unknown` results do not trigger either rule. -/
theorem refine_classify (text : Str) :
    refineIntent (classifyIntent text) = classifyIntent text := by
  rw [classifyIntent_spec]
  split
  · simp [refineIntent, entGet]
  split
  · simp [refineIntent, entGet]
  · have hne : (bestOf (strip (lowerStr text))).1 ≠ Intent.unknown :=
      scoreList_fst_ne_unknown (strip (lowerStr text)) _
        (pymax_mem (headScore (strip (lowerStr text))) (tailScores (strip (lowerStr text))))
    simp [refineIntent, hne]

/-! ## C5 -/

/-- **C5.**  The composed pipeline (classifier followed by refinement) returns
exactly the classifier's result: `refine_intent_with_entities` never changes any
output of `classify_intent`, because every `unknown` result (empty input or
threshold rejection) carries an empty entities mapping and non-`unknown` results do
not trigger the re-labelling rules. -/
theorem C5_refine_identity (text : Str) : classifyFull text = classifyIntent text :=
  refine_classify text

/-! ## C9 -/

/-- **C9.**  Every input that is empty or consists only of whitespace classifies to
`unknown` with confidence `0.0` and an empty entities mapping (the embedding is a
total function, so this is deterministic and raises nothing). -/
theorem C9_whitespace_unknown (text : Str) (h : ∀ c ∈ text, isPySpace c = true) :
    classifyFull text =
      { intent := .unknown, confidence := 0, entities := [], original_text := text } := by
  have hlow : ∀ c ∈ lowerStr text, isPySpace c = true := by
    intro c hc
    obtain ⟨d, hd, hdc⟩ := List.mem_map.mp hc
    have hd' := h d hd
    have hfix : Char.toLower d = d := by
      simp only [isPySpace, Bool.or_eq_true, decide_eq_true_eq] at hd'
      rcases hd' with ((((h1 | h1) | h1) | h1) | h1) | h1 <;> subst h1 <;> decide
    rw [← hdc, hfix]
    exact h d hd
  have hstrip : strip (lowerStr text) = [] := by
    have h1 : (lowerStr text).dropWhile isPySpace = [] :=
      List.dropWhile_eq_nil_iff.mpr hlow
    simp [strip, h1]
  rw [show classifyFull text = refineIntent (classifyIntent text) from rfl,
    refine_classify, classifyIntent_spec, hstrip]
  rfl

/-- Witness for C9 at the two-space input. -/
theorem C9_whitespace_unknown_witness :
    (∀ c ∈ ("  ".toList : Str), isPySpace c = true) ∧
    classifyFull "  ".toList =
      { intent := .unknown, confidence := 0, entities := [],
        original_text := "  ".toList } :=
  ⟨by decide, C9_whitespace_unknown "  ".toList (by decide)⟩

/-! ## C10 -/

/-- **C10.**  The confidence produced by the full pipeline (threshold rejection and
refinement included) always lies in `[0, 1]`. -/
theorem C10_confidence_bounds (text : Str) :
    0 ≤ (classifyFull text).confidence ∧ (classifyFull text).confidence ≤ 1 := by
  rw [show classifyFull text = refineIntent (classifyIntent text) from rfl,
    refine_classify, classifyIntent_spec]
  by_cases h1 : (strip (lowerStr text)).isEmpty
  · rw [if_pos h1]
    exact ⟨le_refl _, by norm_num⟩
  · rw [if_neg h1]
    by_cases h2 : (bestOf (strip (lowerStr text))).2 < 0.1
    · rw [if_pos h2]
      refine ⟨bestOf_nonneg _, le_trans (le_of_lt h2) (by norm_num)⟩
    · rw [if_neg h2]
      exact ⟨le_min (bestOf_nonneg _) zero_le_one, min_le_right _ _⟩

/-! ## C2 -/

/-- **C2.**  For every non-empty normalized input: the chosen `(intent, score)` pair
is maximal among the scores of the intent table, and it is the *first* maximal pair
in declaration order (everything before it scores strictly less — Python's
`max(dict, key=...)` keeps the first of several maxima); when the winning score is
below the `0.1` threshold the result is `unknown` carrying that score as confidence,
and otherwise the result is the winning intent with confidence
`min(winning_score, 1.0)`. -/
theorem C2_selection_rule (text : Str) (hne : strip (lowerStr text) ≠ []) :
    (∀ y ∈ scoreList (strip (lowerStr text)), y.2 ≤ (bestOf (strip (lowerStr text))).2) ∧
    (∃ pre post, scoreList (strip (lowerStr text)) =
        pre ++ bestOf (strip (lowerStr text)) :: post ∧
        ∀ y ∈ pre, y.2 < (bestOf (strip (lowerStr text))).2) ∧
    ((bestOf (strip (lowerStr text))).2 < 0.1 →
      classifyIntent text =
        { intent := .unknown, confidence := (bestOf (strip (lowerStr text))).2,
          entities := [], original_text := text }) ∧
    (0.1 ≤ (bestOf (strip (lowerStr text))).2 →
      classifyIntent text =
        { intent := (bestOf (strip (lowerStr text))).1,
          confidence := min (bestOf (strip (lowerStr text))).2 1,
          entities := extractEntities (strip (lowerStr text)),
          original_text := text }) := by
  have hE : (strip (lowerStr text)).isEmpty = false := by
    cases hmm : strip (lowerStr text) with
    | nil => exact absurd hmm hne
    | cons a l => rfl
  refine ⟨?_, ?_, ?_, ?_⟩
  · rw [scoreList_eq]
    exact pymax_le _ _
  · rw [scoreList_eq]
    exact pymax_split _ _
  · intro h
    rw [classifyIntent_spec, hE]
    simp only [Bool.false_eq_true, if_false]
    rw [if_pos h]
  · intro h
    rw [classifyIntent_spec, hE]
    simp only [Bool.false_eq_true, if_false]
    rw [if_neg (not_lt.mpr h)]

/-- Witness for C2: at `"help"` the winning pair is `(help, 2.5)`, which clips to
confidence `1`. -/
theorem C2_selection_rule_witness :
    classifyIntent "help".toList =
      { intent := .help, confidence := 1, entities := [],
        original_text := "help".toList } := by
  have h := (C2_selection_rule "help".toList (by decide!)).2.2.2 (by decide!)
  rw [h]
  decide!

/-! ## C6 -/

/-- **C6 counterexample.**  On the raw input `"Add task to   "` (trailing
whitespace) the pipeline yields `add_task` with no entities; `_map_add_task`'s
fallback regex then matches the raw text with a whitespace-only first group, which
`strip`s to the empty string — routing succeeds with an **empty** `title`
parameter, refuting the claim's guaranteed non-empty title. -/
theorem C6_counterexample :
    (classifyFull "Add task to   ".toList).intent = .add_task ∧
    (mapAddTask (classifyFull "Add task to   ".toList)).success = true ∧
    pGet (mapAddTask (classifyFull "Add task to   ".toList)).tool_parameters "title" =
      some (pstr []) := by
  refine ⟨?_, ?_, ?_⟩ <;> decide!

/-- **C6 (amended).**  For every `ClassifiedIntent` with intent `add_task`, routing
succeeds with tool name `add_task`; the `title` parameter is the `title` entity when
truthy, else the stripped first group of the fallback regex applied to the **raw**
`original_text`, else the entire raw `original_text` — and it may be empty (when
the regex group strips to nothing, or the raw text is empty).  `priority` defaults
to `"medium"` and `category` to `"general"` when absent, and `due_date` appears in
the parameters if and only if a `date` entity exists. -/
theorem C6_map_add_task (ci : ClassifiedIntent) (h : ci.intent = .add_task) :
    (mapAddTask ci).success = true ∧
    (mapAddTask ci).tool_name = some "add_task".toList ∧
    pGet (mapAddTask ci).tool_parameters "priority" =
      some ((entGet ci.entities "priority").getD (pstr "medium".toList)) ∧
    pGet (mapAddTask ci).tool_parameters "category" =
      some ((entGet ci.entities "category").getD (pstr "general".toList)) ∧
    pGet (mapAddTask ci).tool_parameters "due_date" = entGet ci.entities "date" ∧
    pGet (mapAddTask ci).tool_parameters "title" =
      some (if pyTruthy ((entGet ci.entities "title").getD (pstr [])) then
          (entGet ci.entities "title").getD (pstr [])
        else
          match research ci.original_text mapAddTitleRe with
          | some m => pstr (strip (capLookup ci.original_text m.2.2 1))
          | none => pstr ci.original_text) := by
  cases hdate : entGet ci.entities "date" with
  | none => simp [mapAddTask, pGet, List.find?, hdate]
  | some d => simp [mapAddTask, pGet, List.find?, hdate]

/-- Witness for C6 (amended) at a bare `add_task` intent with no entities. -/
theorem C6_map_add_task_witness :
    pGet (mapAddTask ⟨.add_task, 1, [], "hi".toList⟩).tool_parameters "priority" =
      some (pstr "medium".toList) := by
  have h := (C6_map_add_task ⟨.add_task, 1, [], "hi".toList⟩ rfl).2.2.1
  rw [h]
  decide!

/-! ## C7 -/

/-- **C7 counterexample.**  A `complete_task` intent whose only identifier is a
`title` entity that is a *list* (a shape the classifier really produces, e.g. for
the input `"update task a\nupdate task b"`): Python evaluates
`"placeholder-id-for-" + task_title.replace(...)` and raises `AttributeError`, so
routing does **not** succeed with a placeholder id even though only a title is
present (the `except` clause in `route_to_tool` then reports a generic failure). -/
theorem C7_counterexample :
    mapCompleteTask ⟨.complete_task, 1,
      [("title", .list [.str "a".toList, .str "b".toList])], "t".toList⟩ =
      .error "attribute" := by
  decide!

/-- **C7 (amended).**  For every `ClassifiedIntent` with intent `complete_task`,
`delete_task` or `update_task`: when neither a truthy `task_id` entity nor a truthy
`title` entity is present, routing returns `success=false` with a clarification
message (and a diagnostic error); when no truthy `task_id` is present and the
`title` entity is a non-empty **string**, routing succeeds with the placeholder
`task_id` `"placeholder-id-for-" ++ title` with spaces replaced by hyphens.
(A truthy non-string title instead raises — see the counterexample.) -/
theorem C7_task_identifier (ci : ClassifiedIntent) (uid : Str)
    (h : ci.intent = .complete_task ∨ ci.intent = .delete_task ∨
      ci.intent = .update_task) :
    (((entGet ci.entities "task_id").map pyTruthy).getD false = false →
      pyTruthy ((entGet ci.entities "title").getD (pstr [])) = false →
      ∃ r, routeBody ci uid = .ok r ∧ r.success = false ∧
        r.message.isSome = true ∧ r.error.isSome = true) ∧
    (∀ s : Str, ((entGet ci.entities "task_id").map pyTruthy).getD false = false →
      entGet ci.entities "title" = some (pstr s) → s ≠ [] →
      ∃ r, routeBody ci uid = .ok r ∧ r.success = true ∧
        pGet r.tool_parameters "task_id" =
          some (pstr ("placeholder-id-for-".toList ++ dashSpaces s))) := by
  constructor
  · intro h1 h2
    rcases h with hI | hI | hI <;>
      · simp only [routeBody, hI]
        simp [mapCompleteTask, mapDeleteTask, mapUpdateTask, h1, h2]
  · intro s h1 h2 h3
    have hs : s.isEmpty = false := by
      cases s with
      | nil => exact absurd rfl h3
      | cons a l => rfl
    rcases h with hI | hI | hI <;>
      · simp only [routeBody, hI]
        simp [mapCompleteTask, mapDeleteTask, mapUpdateTask, h1, h2, pstr, pyTruthy,
          hs, placeholderId, pGet, List.find?]

/-- Witness for C7 (amended): both parts at concrete intents — a `delete_task` with
no identifying entities fails with a clarification, and a `delete_task` carrying the
string title `"ab c"` succeeds with the placeholder id `"placeholder-id-for-ab-c"`. -/
theorem C7_task_identifier_witness :
    (∃ r, routeBody ⟨.delete_task, 1, [], "x".toList⟩ "u".toList = .ok r ∧
      r.success = false ∧ r.message.isSome = true ∧ r.error.isSome = true) ∧
    (∃ r, routeBody ⟨.delete_task, 1, [("title", pstr "ab c".toList)], "x".toList⟩
        "u".toList = .ok r ∧ r.success = true ∧
      pGet r.tool_parameters "task_id" =
        some (pstr ("placeholder-id-for-".toList ++ dashSpaces "ab c".toList))) :=
  ⟨(C7_task_identifier ⟨.delete_task, 1, [], "x".toList⟩ "u".toList
      (Or.inr (Or.inl rfl))).1 (by decide) (by decide),
    (C7_task_identifier ⟨.delete_task, 1, [("title", pstr "ab c".toList)], "x".toList⟩
      "u".toList (Or.inr (Or.inl rfl))).2 "ab c".toList (by decide) (by decide)
      (by decide)⟩

/-! ## C8 -/

/-- Any `ok` result of `_map_complete_task` with `success=false` carries both a
message and an error. -/
theorem mapComplete_failure_fields (ci : ClassifiedIntent) (r : ToolMappingResult)
    (hok : mapCompleteTask ci = .ok r) (hf : r.success = false) :
    r.error.isSome = true ∧ r.message.isSome = true := by
  simp only [mapCompleteTask] at hok
  by_cases hc : (!((entGet ci.entities "task_id").map pyTruthy).getD false &&
      !pyTruthy ((entGet ci.entities "title").getD (pstr []))) = true
  · rw [if_pos hc] at hok
    cases hok
    exact ⟨rfl, rfl⟩
  · rw [if_neg hc] at hok
    by_cases hc2 : (!((entGet ci.entities "task_id").map pyTruthy).getD false &&
        pyTruthy ((entGet ci.entities "title").getD (pstr []))) = true
    · rw [if_pos hc2] at hok
      rcases hpl : placeholderId ((entGet ci.entities "title").getD (pstr [])) with e | v
      · rw [hpl] at hok
        exact Except.noConfusion hok
      · rw [hpl] at hok
        cases hok
        exact Bool.noConfusion hf
    · rw [if_neg hc2] at hok
      cases hok
      exact Bool.noConfusion hf

/-- Any `ok` result of `_map_delete_task` with `success=false` carries both a
message and an error. -/
theorem mapDelete_failure_fields (ci : ClassifiedIntent) (r : ToolMappingResult)
    (hok : mapDeleteTask ci = .ok r) (hf : r.success = false) :
    r.error.isSome = true ∧ r.message.isSome = true := by
  simp only [mapDeleteTask] at hok
  by_cases hc : (!((entGet ci.entities "task_id").map pyTruthy).getD false &&
      !pyTruthy ((entGet ci.entities "title").getD (pstr []))) = true
  · rw [if_pos hc] at hok
    cases hok
    exact ⟨rfl, rfl⟩
  · rw [if_neg hc] at hok
    by_cases hc2 : (!((entGet ci.entities "task_id").map pyTruthy).getD false &&
        pyTruthy ((entGet ci.entities "title").getD (pstr []))) = true
    · rw [if_pos hc2] at hok
      rcases hpl : placeholderId ((entGet ci.entities "title").getD (pstr [])) with e | v
      · rw [hpl] at hok
        exact Except.noConfusion hok
      · rw [hpl] at hok
        cases hok
        exact Bool.noConfusion hf
    · rw [if_neg hc2] at hok
      cases hok
      exact Bool.noConfusion hf

/-- Any `ok` result of `_map_update_task` with `success=false` carries both a
message and an error. -/
theorem mapUpdate_failure_fields (ci : ClassifiedIntent) (r : ToolMappingResult)
    (hok : mapUpdateTask ci = .ok r) (hf : r.success = false) :
    r.error.isSome = true ∧ r.message.isSome = true := by
  simp only [mapUpdateTask] at hok
  by_cases hc : (!((entGet ci.entities "task_id").map pyTruthy).getD false &&
      !pyTruthy ((entGet ci.entities "title").getD (pstr []))) = true
  · rw [if_pos hc] at hok
    cases hok
    exact ⟨rfl, rfl⟩
  · rw [if_neg hc] at hok
    by_cases hc2 : (!((entGet ci.entities "task_id").map pyTruthy).getD false &&
        pyTruthy ((entGet ci.entities "title").getD (pstr []))) = true
    · rw [if_pos hc2] at hok
      rcases hpl : placeholderId ((entGet ci.entities "title").getD (pstr [])) with e | v
      · rw [hpl] at hok
        exact Except.noConfusion hok
      · rw [hpl] at hok
        cases hok
        exact Bool.noConfusion hf
    · rw [if_neg hc2] at hok
      cases hok
      exact Bool.noConfusion hf

/-- **C8.**  `route_to_tool` is a total function of the embedding (the `try/except`
is modelled by catching the `Except`), so it never raises and always returns a
`ToolMappingResult`; every `success=false` result carries both a diagnostic `error`
and a user-facing `message`, and an `unknown` classification yields the
"could not understand" failure. -/
theorem C8_route_failures (text uid : Str) :
    ((route_to_tool text uid).success = false →
      (route_to_tool text uid).error.isSome = true ∧
      (route_to_tool text uid).message.isSome = true) ∧
    ((classifyFull text).intent = .unknown →
      (route_to_tool text uid).success = false ∧
      (route_to_tool text uid).message =
        some "I didn\x27t understand your request. Could you rephrase it?".toList ∧
      (route_to_tool text uid).error.isSome = true) := by
  constructor
  · intro hf
    rcases hrb : routeBody (classifyFull text) uid with e | r
    · simp only [route_to_tool, hrb]
      exact ⟨rfl, rfl⟩
    · have hro : route_to_tool text uid = r := by
        simp only [route_to_tool, hrb]
      rw [hro] at hf ⊢
      rcases hI : (classifyFull text).intent
      case complete_task =>
        rw [routeBody, hI] at hrb
        exact (mapComplete_failure_fields _ _ hrb hf)
      case delete_task =>
        rw [routeBody, hI] at hrb
        exact (mapDelete_failure_fields _ _ hrb hf)
      case update_task =>
        rw [routeBody, hI] at hrb
        exact (mapUpdate_failure_fields _ _ hrb hf)
      case add_task =>
        rw [routeBody, hI] at hrb
        cases hrb
        exact Bool.noConfusion hf
      case list_tasks =>
        rw [routeBody, hI] at hrb
        cases hrb
        exact Bool.noConfusion hf
      case help =>
        rw [routeBody, hI] at hrb
        cases hrb
        exact Bool.noConfusion hf
      case unknown =>
        rw [routeBody, hI] at hrb
        cases hrb
        exact ⟨rfl, rfl⟩
  · intro hI
    have hrb : routeBody (classifyFull text) uid = .ok
        { success := false,
          error := some ("Could not understand intent: unknown. Please try rephrasing your request.".toList),
          message := some "I didn\x27t understand your request. Could you rephrase it?".toList } := by
      rw [routeBody, hI]
    simp [route_to_tool, hrb]

/-- Witness for C8 at the gibberish input `"zzz"` (which classifies to `unknown`). -/
theorem C8_route_failures_witness :
    (classifyFull "zzz".toList).intent = .unknown ∧
    (route_to_tool "zzz".toList "u".toList).success = false ∧
    (route_to_tool "zzz".toList "u".toList).message =
      some "I didn\x27t understand your request. Could you rephrase it?".toList ∧
    (route_to_tool "zzz".toList "u".toList).error.isSome = true :=
  ⟨by decide!, (C8_route_failures "zzz".toList "u".toList).2 (by decide!)⟩

/-! ## C3 -/

theorem procEnt_shape (d : Bool) (vs : List EntVal) (h : vs ≠ []) :
    entShapeOK (procEnt d vs) = true := by
  unfold procEnt
  set pv := if d then vs else vs.map entLowerIfStr with hpv
  have hne : pv ≠ [] := by
    rw [hpv]
    split
    · exact h
    · simpa using h
  by_cases h1 : pv.length = 1
  · rw [if_pos h1]
    rfl
  · rw [if_neg h1]
    show decide (2 ≤ pv.length) = true
    have hpos : 0 < pv.length := List.length_pos.mpr hne
    simp only [decide_eq_true_eq]
    omega

theorem firstPatMatch_shape (t : Str) (d : Bool) :
    ∀ (ps : List Pat) (v : PyVal), firstPatMatch t d ps = some v → entShapeOK v = true
  | [], v => fun h => Option.noConfusion h
  | p :: ps, v => by
    intro h
    unfold firstPatMatch at h
    rcases hf : findallRaw t p.re with - | ⟨m, ms⟩
    · rw [hf] at h
      exact firstPatMatch_shape t d ps v h
    · rw [hf] at h
      cases h
      exact procEnt_shape _ _ (by simp)

theorem foldl_entStep_prop (P : PyVal → Bool) (t : Str)
    (hP : ∀ (d : Bool) (ps : List Pat) (v : PyVal),
      firstPatMatch t d ps = some v → P v = true) :
    ∀ (tbl : List (String × List Pat)) (acc : List (String × PyVal)),
      (∀ kv ∈ acc, P kv.2 = true) →
      ∀ kv ∈ tbl.foldl (entStep t) acc, P kv.2 = true
  | [], acc, hacc => hacc
  | ep :: tbl, acc, hacc => by
    intro kv hkv
    rw [List.foldl_cons] at hkv
    refine foldl_entStep_prop P t hP tbl _ ?_ kv hkv
    intro kv2 hkv2
    unfold entStep at hkv2
    rcases hm : firstPatMatch t (ep.1 = "date") ep.2 with - | v
    · rw [hm] at hkv2
      exact hacc kv2 hkv2
    · rw [hm] at hkv2
      rcases List.mem_append.mp hkv2 with h2 | h2
      · exact hacc kv2 h2
      · rw [List.mem_singleton] at h2
        rw [h2]
        exact hP _ _ _ hm

theorem extract_prop (P : PyVal → Bool) (t : Str)
    (hP : ∀ (d : Bool) (ps : List Pat) (v : PyVal),
      firstPatMatch t d ps = some v → P v = true)
    (hT : ∀ m, research t fallbackTitleRe = some m →
      P (pstr (strip (capLookup t m.2.2 1))) = true) :
    ∀ kv ∈ extractEntities t, P kv.2 = true := by
  intro kv hkv
  simp only [extractEntities] at hkv
  have hbaseP : ∀ kv2 ∈ entityTable.foldl (entStep t) [], P kv2.2 = true :=
    foldl_entStep_prop P t hP entityTable [] (by simp)
  by_cases hti : (entGet (entityTable.foldl (entStep t) []) "title").isSome
  · rw [if_pos hti] at hkv
    exact hbaseP kv hkv
  · rw [if_neg hti] at hkv
    rcases hres : research t fallbackTitleRe with - | m
    · rw [hres] at hkv
      exact hbaseP kv hkv
    · rw [hres] at hkv
      rcases List.mem_append.mp hkv with h2 | h2
      · exact hbaseP kv h2
      · rw [List.mem_singleton] at h2
        rw [h2]
        exact hT m hres

/-- **C3 counterexample.**  On the input `"must category is work"` (an `add_task`
classification) the `category` slot is filled by a pattern with two capturing
groups, so `re.findall` yields a *tuple* — neither a single string nor a list of
strings as the claim asserts. -/
theorem C3_counterexample :
    entGet (classifyFull "must category is work".toList).entities "category" =
      some (.ev (.tup ["category is work".toList, "work".toList])) ∧
    strOrStrList (.ev (.tup ["category is work".toList, "work".toList])) = false :=
  ⟨by decide!, by decide⟩

/-- **C3 (amended).**  Every value in the entities mapping at the classification
output interface is either a scalar — a single string, or a *tuple* of the captured
groups when the winning pattern has two or more capturing groups — or a list of at
least two such scalars (when the winning pattern matched more than once); no other
shapes (in particular no numbers and no short lists) occur. -/
theorem C3_entity_shapes (text : Str) (kv : String × PyVal)
    (h : kv ∈ (classifyFull text).entities) : entShapeOK kv.2 = true := by
  rw [show classifyFull text = refineIntent (classifyIntent text) from rfl,
    refine_classify, classifyIntent_spec] at h
  by_cases h1 : (strip (lowerStr text)).isEmpty
  · rw [if_pos h1] at h
    simp at h
  · rw [if_neg h1] at h
    by_cases h2 : (bestOf (strip (lowerStr text))).2 < 0.1
    · rw [if_pos h2] at h
      simp at h
    · rw [if_neg h2] at h
      exact extract_prop entShapeOK _ (fun d ps v hm => firstPatMatch_shape _ d ps v hm)
        (fun m hm => rfl) kv h

/-- Witness for C3 (amended) at the category tuple produced by
`"must category is work"`. -/
theorem C3_entity_shapes_witness :
    entShapeOK (PyVal.ev (.tup ["category is work".toList, "work".toList])) = true :=
  C3_entity_shapes "must category is work".toList
    ("category", .ev (.tup ["category is work".toList, "work".toList])) (by decide!)

/-! ## C4 -/

theorem ule_iff (a b : UInt32) : a ≤ b ↔ a.toNat ≤ b.toNat := by
  rw [UInt32.le_def, BitVec.le_def]
  rfl

theorem isUpper_iff (c : Char) : c.isUpper = true ↔ 65 ≤ c.toNat ∧ c.toNat ≤ 90 := by
  simp only [Char.isUpper, Bool.and_eq_true, decide_eq_true_eq, ule_iff, Char.toNat,
    UInt32.toNat_ofNat, UInt32.size]

theorem toNat_ofNat_valid {n : Nat} (h : n.isValidChar) : (Char.ofNat n).toNat = n := by
  rw [Char.ofNat, dif_pos h]
  simp [Char.ofNatAux, Char.toNat, UInt32.toNat]

/-- ASCII-lowercasing a character never yields an ASCII uppercase letter. -/
theorem toLower_not_upper (c : Char) : (Char.toLower c).isUpper = false := by
  rw [Char.toLower]
  by_cases h : c.toNat ≥ 65 ∧ c.toNat ≤ 90
  · rw [if_pos h]
    have hvalid : (c.toNat + 32).isValidChar := Or.inl (by omega)
    have ht : (Char.ofNat (c.toNat + 32)).toNat = c.toNat + 32 := toNat_ofNat_valid hvalid
    rw [Bool.eq_false_iff]
    intro hc
    have h2 := (isUpper_iff _).mp hc
    omega
  · rw [if_neg h]
    rw [Bool.eq_false_iff]
    intro hc
    exact h ((isUpper_iff _).mp hc)

theorem mem_of_dropWhile {p : Char → Bool} :
    ∀ {l : Str} {c : Char}, c ∈ l.dropWhile p → c ∈ l := by
  intro l
  induction l with
  | nil => intro c h; simpa using h
  | cons a as ih =>
    intro c h
    by_cases hp : p a
    · rw [List.dropWhile_cons_of_pos hp] at h
      exact List.mem_cons_of_mem _ (ih h)
    · rw [List.dropWhile_cons_of_neg hp] at h
      exact h

theorem mem_of_strip {s : Str} {c : Char} (h : c ∈ strip s) : c ∈ s := by
  unfold strip at h
  rw [List.mem_reverse] at h
  have h1 := mem_of_dropWhile h
  rw [List.mem_reverse] at h1
  exact mem_of_dropWhile h1

/-- Every character of the normalized text is non-uppercase (the text was
lowercased before stripping). -/
theorem lowered_noUp (text : Str) : ∀ c ∈ strip (lowerStr text), c.isUpper = false := by
  intro c hc
  obtain ⟨d, -, hdc⟩ := List.mem_map.mp (mem_of_strip hc)
  rw [← hdc]
  exact toLower_not_upper d

theorem strNoUp_of_mem {t s : Str} (ht : ∀ c ∈ t, c.isUpper = false)
    (hs : ∀ c ∈ s, c ∈ t) : strNoUp s = true := by
  rw [strNoUp, List.all_eq_true]
  intro c hc
  rw [Bool.not_eq_true']
  exact ht c (hs c hc)

theorem mem_of_slice {t : Str} {a b : Nat} {c : Char} (h : c ∈ sliceStr t a b) : c ∈ t :=
  List.drop_subset a t (List.take_subset _ _ h)

theorem mem_of_capLookup {t : Str} {cs : Caps} {i : Nat} {c : Char}
    (h : c ∈ capLookup t cs i) : c ∈ t := by
  unfold capLookup at h
  rcases hf : cs.find? (fun e => e.1 = i) with - | e
  · rw [hf] at h
    simp at h
  · rw [hf] at h
    exact mem_of_slice h

theorem matchVal_noUp {t : Str} (ht : ∀ c ∈ t, c.isUpper = false) (ng : Nat)
    (m : Nat × Nat × Caps) : entNoUp (matchVal ng t m) = true := by
  unfold matchVal
  by_cases h0 : ng = 0
  · rw [if_pos h0]
    exact strNoUp_of_mem ht (fun c hc => mem_of_slice hc)
  · rw [if_neg h0]
    by_cases h1 : ng = 1
    · rw [if_pos h1]
      exact strNoUp_of_mem ht (fun c hc => mem_of_capLookup hc)
    · rw [if_neg h1]
      show ((List.range ng).map _).all strNoUp = true
      rw [List.all_eq_true]
      intro x hx
      obtain ⟨j, -, hj⟩ := List.mem_map.mp hx
      rw [← hj]
      exact strNoUp_of_mem ht (fun c hc => mem_of_capLookup hc)

theorem entLower_noUp {e : EntVal} (he : entNoUp e = true) :
    entNoUp (entLowerIfStr e) = true := by
  cases e with
  | str s =>
    show strNoUp (lowerStr s) = true
    rw [strNoUp, List.all_eq_true]
    intro c hc
    obtain ⟨d, -, hdc⟩ := List.mem_map.mp hc
    rw [Bool.not_eq_true', ← hdc]
    exact toLower_not_upper d
  | tup l => exact he

theorem procEnt_noUp (d : Bool) (vs : List EntVal)
    (hvs : ∀ v ∈ vs, entNoUp v = true) : valNoUp (procEnt d vs) = true := by
  unfold procEnt
  set pv := if d then vs else vs.map entLowerIfStr with hpv
  have hall : ∀ v ∈ pv, entNoUp v = true := by
    rw [hpv]
    split
    · exact hvs
    · intro v hv
      obtain ⟨w, hw, hwv⟩ := List.mem_map.mp hv
      rw [← hwv]
      exact entLower_noUp (hvs w hw)
  by_cases h1 : pv.length = 1
  · rw [if_pos h1]
    show entNoUp (pv.headD (.str [])) = true
    have hne : pv ≠ [] := by
      intro hnil
      rw [hnil] at h1
      simp at h1
    obtain ⟨a, l, hal⟩ := List.exists_cons_of_ne_nil hne
    rw [hal] at hall ⊢
    exact hall a (List.mem_cons_self _ _)
  · rw [if_neg h1]
    show pv.all entNoUp = true
    rw [List.all_eq_true]
    exact hall

theorem firstPatMatch_noUp {t : Str} (ht : ∀ c ∈ t, c.isUpper = false) (d : Bool) :
    ∀ (ps : List Pat) (v : PyVal), firstPatMatch t d ps = some v → valNoUp v = true
  | [], v => fun h => Option.noConfusion h
  | p :: ps, v => by
    intro h
    unfold firstPatMatch at h
    rcases hf : findallRaw t p.re with - | ⟨m, ms⟩
    · rw [hf] at h
      exact firstPatMatch_noUp ht d ps v h
    · rw [hf] at h
      cases h
      refine procEnt_noUp _ _ ?_
      intro w hw
      obtain ⟨mm, -, hmm⟩ := List.mem_map.mp hw
      rw [← hmm]
      exact matchVal_noUp ht _ _

/-- **C4 counterexample.**  On the raw input `"must pay Tomorrow"` (an `add_task`
classification) the `date` slot holds `"tomorrow"`, not `"Tomorrow"` as typed:
extraction runs on the already-lowercased text, so the date value does *not*
preserve the original casing of the input. -/
theorem C4_counterexample :
    entGet (classifyFull "must pay Tomorrow".toList).entities "date" =
      some (pstr "tomorrow".toList) ∧
    some (pstr "tomorrow".toList) ≠ some (pstr "Tomorrow".toList) :=
  ⟨by decide!, by decide⟩

/-- **C4 (amended).**  Extraction runs on the lowercased, stripped text:
`_extract_entities` applies an extra `.lower()` to every slot except `date` and
stores `date` values exactly as matched, but since the text was already lowercased
by `classify_intent`, *every* extracted value — the `date` slot included — is free
of ASCII uppercase letters; the original casing the user typed is not preserved for
any slot. -/
theorem C4_values_lowercased (text : Str) (kv : String × PyVal)
    (h : kv ∈ (classifyFull text).entities) : valNoUp kv.2 = true := by
  rw [show classifyFull text = refineIntent (classifyIntent text) from rfl,
    refine_classify, classifyIntent_spec] at h
  by_cases h1 : (strip (lowerStr text)).isEmpty
  · rw [if_pos h1] at h
    simp at h
  · rw [if_neg h1] at h
    by_cases h2 : (bestOf (strip (lowerStr text))).2 < 0.1
    · rw [if_pos h2] at h
      simp at h
    · rw [if_neg h2] at h
      have ht := lowered_noUp text
      refine extract_prop valNoUp _
        (fun d ps v hm => firstPatMatch_noUp ht d ps v hm) (fun m hm => ?_) kv h
      show strNoUp (strip (capLookup (strip (lowerStr text)) m.2.2 1)) = true
      exact strNoUp_of_mem ht (fun c hc => mem_of_capLookup (mem_of_strip hc))

/-- Witness for C4 (amended) at the date value extracted from
`"must pay Tomorrow"`. -/
theorem C4_values_lowercased_witness : valNoUp (pstr "tomorrow".toList) = true :=
  C4_values_lowercased "must pay Tomorrow".toList ("date", pstr "tomorrow".toList)
    (by decide!)

end TodoAgent